import Mathlib

/-!
Verification development for the Flipkart review scraper
(`flipkart_review_scraper.py`): a shallow embedding of the review
segmenter, the page classifier, the pagination advancer and the crawl
loop, together with theorems checking the behavioural claims made about
them.

Conventions of the embedding:
* Python strings are `String`/`List Char`; all text processing is done on
  `List Char` with executable definitions.
* `str.find` / `in` / `split` / `strip` / `replace` / slicing are modelled
  by `findSubL` / `containsSubL` / `splitOnL` / `trimL` / `removeAllSub`,
  `replaceFirstL` / `sliceL` below, matching CPython semantics for the
  character sets the scraper uses (ASCII).  Python's `str.isdigit`,
  `str.lower` and `\s` are modelled on their ASCII fragment
  (`Char.isDigit`, `Char.toLower`, `isPyWs`), which covers every string
  the scraper manipulates.
* The concrete regular expressions of the source are compiled by hand
  into deterministic scanners; each scanner's doc comment names the
  regex it embeds and justifies why backtracking is not needed for it.
* BeautifulSoup queries are modelled by a `Page` structure holding the
  query results the code reads (texts of the review containers, string
  nodes, anchors, ...); fetching is an external collaborator modelled as
  an oracle `String → Except String Page`.
-/

namespace Flipkart

/-! ### Python string primitives on `List Char` -/

/-- Python whitespace (`\s` of `re`, and the characters `str.strip`
removes), restricted to ASCII: space, tab, newline, carriage return,
vertical tab, form feed. -/
def isPyWs (c : Char) : Bool :=
  c = ' ' || c = '\t' || c = '\n' || c = '\r' || c = '\x0b' || c = '\x0c'

/-- Auxiliary scanner for `str.find`: first index `≥ i` at which `pat`
occurs in `l`, scanning left to right. -/
def findSubAux (pat : List Char) : List Char → Nat → Option Nat
  | [], i => if pat.isEmpty then some i else none
  | c :: rest, i =>
    if pat.isPrefixOf (c :: rest) then some i else findSubAux pat rest (i + 1)

/-- Python `s.find(pat)` restricted to found/not-found: index of the first
occurrence of `pat` in `l`. -/
def findSubL (l pat : List Char) : Option Nat :=
  findSubAux pat l 0

/-- Python `pat in s`: substring containment. -/
def containsSubL (l pat : List Char) : Bool :=
  (findSubL l pat).isSome

/-- Python `pat in s` on `String`s. -/
def strContains (s pat : String) : Bool :=
  containsSubL s.data pat.data

/-- Python `s.lower()` (ASCII). -/
def lowerL (l : List Char) : List Char :=
  l.map Char.toLower

/-- Python `s.strip()`: drop leading and trailing whitespace. -/
def trimL (l : List Char) : List Char :=
  ((((l.dropWhile isPyWs).reverse).dropWhile isPyWs)).reverse

/-- Python slicing `s[a:b]` for `0 ≤ a`, `0 ≤ b`. -/
def sliceL (l : List Char) (a b : Nat) : List Char :=
  (l.drop a).take (b - a)

/-- Python `s.replace(pat, "", 1)`: remove the first occurrence of `pat`. -/
def replaceFirstL (pat : List Char) : List Char → List Char
  | [] => []
  | c :: rest =>
    if pat.isPrefixOf (c :: rest) then (c :: rest).drop pat.length
    else c :: replaceFirstL pat rest

/-- Worker for `removeAllSub`; the fuel (initially the list's length,
always an upper bound for it, since each step strictly shortens the
list) makes the recursion structural so that it reduces in the
kernel. -/
def removeAllFuel (pat : List Char) : Nat → List Char → List Char
  | 0, _ => []
  | fuel + 1, l =>
    match l with
    | [] => []
    | c :: rest =>
      if !pat.isEmpty && pat.isPrefixOf (c :: rest) then
        removeAllFuel pat fuel ((c :: rest).drop pat.length)
      else c :: removeAllFuel pat fuel rest

/-- Python `s.replace(pat, "")` for nonempty `pat`: remove all
(non-overlapping, left-to-right) occurrences of `pat`. -/
def removeAllSub (pat l : List Char) : List Char :=
  removeAllFuel pat l.length l

/-- Worker for `splitOnL`: `acc` is the reversed current chunk; the fuel
(initially the list's length, always an upper bound for it) makes the
recursion structural so that it reduces in the kernel. -/
def splitOnFuel (sep : List Char) : Nat → List Char → List Char → List (List Char)
  | 0, _, acc => [acc.reverse]
  | fuel + 1, l, acc =>
    match l with
    | [] => [acc.reverse]
    | c :: rest =>
      if sep.isPrefixOf (c :: rest) then
        acc.reverse :: splitOnFuel sep fuel ((c :: rest).drop sep.length) []
      else splitOnFuel sep fuel rest (c :: acc)

/-- Python `s.split(sep)` for nonempty `sep`: split on every
(non-overlapping) occurrence, keeping empty chunks. -/
def splitOnL (sep l : List Char) : List (List Char) :=
  if sep.isEmpty then [l] else splitOnFuel sep l.length l []

/-- Python `sep.join(chunks)`. -/
def intercalateL (sep : List Char) : List (List Char) → List Char
  | [] => []
  | [x] => x
  | x :: y :: rest => x ++ sep ++ intercalateL sep (y :: rest)

/-- Python `int(digits)` on a nonempty digit string. -/
def digitsToNat (ds : List Char) : Nat :=
  ds.foldl (fun a c => a * 10 + (c.toNat - 48)) 0

/-! ### The review record (§3 of the spec) -/

/-- One extracted review, with the exact fields the scraper emits
(`review_data` dict of `extract_reviews_from_page`). -/
structure ReviewRecord where
  rating : String
  title : String
  text : String
  reviewer_name : String
  date : String
  helpful_votes : String
  verified_purchase : Bool
deriving Repr, DecidableEq

/-! ### The fragment parser (primary "marked fragment" path) -/

/-- The closed sentiment-title vocabulary, in the exact order of the
`title_words` list of the source. -/
def title_words : List String :=
  ["Wonderful", "Amazing", "Classy", "Perfect", "Fabulous", "Excellent",
   "Very Good", "Good", "Pretty good", "Mind-blowing", "Worth the money",
   "Terrific", "Just average", "Fair", "Not recommended"]

/-- The `'READ MORE'` boundary marker. -/
def readMoreChars : List Char := "READ MORE".data

/-- Title matching of the primary path: the `for word in title_words`
loop with `review_text[title_start:].startswith(word)` and `break` on the
first hit (`title_start = 1`). -/
def matchTitleAtStart (afterRating : List Char) : Option String :=
  title_words.find? (fun w => w.data.isPrefixOf afterRating)

/-- Title matching of the line-split fallback: the `for word in
title_words` loop with `word in first_line` and `break` on the first
hit. -/
def matchTitleContains (firstLine : List Char) : Option String :=
  title_words.find? (fun w => containsSubL firstLine w.data)

/-- Branch of the primary parser taken when `title_end` is truthy
(`'READ MORE'` occurs at a positive index `n`): vocabulary prefix match
after the rating digit, body between the title (or index 1) and the
boundary, stripped. -/
def titleTextWithReadMore (cs : List Char) (n : Nat) : String × String :=
  match matchTitleAtStart (cs.drop 1) with
  | some w => (w, String.mk (trimL (sliceL cs (1 + w.data.length) n)))
  | none => ("No Title", String.mk (trimL (sliceL cs 1 n)))

/-- Branch of the primary parser taken when `title_end` is falsy (no
`'READ MORE'`, or at index 0): split on line breaks and use the
containment-based vocabulary match on the first line. -/
def titleTextNoReadMore (cs : List Char) : String × String :=
  let lines := splitOnL ['\n'] cs
  if lines.length > 1 then
    match lines with
    | [] => ("No Title", String.mk cs)
    | l0 :: rest =>
      if (!l0.isEmpty) && (l0.headD ' ').isDigit then
        let firstLine := trimL (l0.drop 1)
        match matchTitleContains firstLine with
        | some w =>
          let firstLine' := trimL (replaceFirstL w.data firstLine)
          if !firstLine'.isEmpty then (w, String.mk firstLine')
          else if lines.length > 1 then (w, String.mk (intercalateL [' '] rest))
          else (w, "No review text")
        | none =>
          if !firstLine.isEmpty then ("No Title", String.mk firstLine)
          else if lines.length > 1 then ("No Title", String.mk (intercalateL [' '] rest))
          else ("No Title", "No review text")
      else ("No Title", String.mk cs)
  else
    ("No Title",
      if (!cs.isEmpty) && (cs.headD ' ').isDigit then String.mk (cs.drop 1)
      else String.mk cs)

/-- Title and body extraction of the primary path: `title_end =
review_text.find('READ MORE') if 'READ MORE' in review_text else None`
followed by `if title_end:` (note: falsy also at index 0). -/
def titleAndText (cs : List Char) : String × String :=
  match findSubL cs readMoreChars with
  | some n => if n = 0 then titleTextNoReadMore cs else titleTextWithReadMore cs n
  | none => titleTextNoReadMore cs

/-- Scanner for the regex `READ MORE([A-Za-z ]+)Certified`: given the text
after a `READ MORE` occurrence and a candidate capture length `k`
(descending — the `[A-Za-z ]+` quantifier is greedy), return the longest
capture followed by the literal `Certified`. -/
def greedyNameCapture (rest : List Char) : Nat → Option (List Char)
  | 0 => none
  | k + 1 =>
    if "Certified".data.isPrefixOf (rest.drop (k + 1)) then some (rest.take (k + 1))
    else greedyNameCapture rest k

/-- Character class `[A-Za-z ]`. -/
def isAlphaSpace (c : Char) : Bool :=
  ('A' ≤ c && c ≤ 'Z') || ('a' ≤ c && c ≤ 'z') || c = ' '

/-- Scanner for `re.search(r'READ MORE([A-Za-z ]+)Certified', s)`: try
each position left to right; at an occurrence of `READ MORE`, greedily
capture `[A-Za-z ]+` and backtrack to the longest capture followed by
`Certified`. -/
def searchReadMoreName : List Char → Option (List Char)
  | [] => none
  | c :: rest =>
    let here : Option (List Char) :=
      if readMoreChars.isPrefixOf (c :: rest) then
        let after := (c :: rest).drop 9
        greedyNameCapture after ((after.takeWhile isAlphaSpace).length)
      else none
    match here with
    | some cap => some cap
    | none => searchReadMoreName rest

/-- Character class `[A-Z]`. -/
def isUpperAZ (c : Char) : Bool := 'A' ≤ c && c ≤ 'Z'

/-- Character class `[a-z]`. -/
def isLowerAZ (c : Char) : Bool := 'a' ≤ c && c ≤ 'z'

/-- Match of `[A-Z][a-z]+ +[A-Z][a-z]+(?:Certified|\s*$)` anchored at the
head of `l`.  Every greedy quantifier here is forced (the character
classes of adjacent atoms are disjoint), so the scanner is
deterministic. -/
def matchTwoCapAt (l : List Char) : Option (List Char) :=
  match l with
  | [] => none
  | c1 :: r1 =>
    if isUpperAZ c1 then
      let low1 := r1.takeWhile isLowerAZ
      if low1.isEmpty then none else
      let r2 := r1.drop low1.length
      let sps := r2.takeWhile (fun c => c = ' ')
      if sps.isEmpty then none else
      let r3 := r2.drop sps.length
      match r3 with
      | [] => none
      | c2 :: r4 =>
        if isUpperAZ c2 then
          let low2 := r4.takeWhile isLowerAZ
          if low2.isEmpty then none else
          let r5 := r4.drop low2.length
          if "Certified".data.isPrefixOf r5 || r5.all isPyWs then
            some (c1 :: (low1 ++ sps ++ c2 :: low2))
          else none
        else none
    else none

/-- Scanner for `re.search(r'([A-Z][a-z]+ +[A-Z][a-z]+)(?:Certified|\s*$)', s)`. -/
def searchTwoCapName : List Char → Option (List Char)
  | [] => none
  | c :: rest =>
    match matchTwoCapAt (c :: rest) with
    | some cap => some cap
    | none => searchTwoCapName rest

/-- Reviewer-name extraction of the primary path (including the
`"Certified Buyer"` cleanup applied to whatever name was found). -/
def reviewerNameOf (cs : List Char) : String :=
  let raw : List Char :=
    match searchReadMoreName cs with
    | some cap => trimL cap
    | none =>
      match searchTwoCapName cs with
      | some cap => trimL cap
      | none => "Unknown".data
  if containsSubL raw "Certified Buyer".data then
    String.mk (trimL (removeAllSub "Certified Buyer".data raw))
  else String.mk raw

/-- Per-fragment parser of the primary ("EKFha-") path of
`extract_reviews_from_page`: `review_text = review.text.strip()`, leading
rating digit, title/body split at `READ MORE`, certified-buyer flag
(case-insensitive) and reviewer-name extraction.  Total by construction:
every Python operation in the fragment body is non-raising, so the
per-fragment `try/except` never fires. -/
def parse_review_fragment (raw : String) : ReviewRecord :=
  let cs := trimL raw.data
  let rating : String :=
    match cs with
    | c :: _ => if c.isDigit then String.mk [c] else "Unknown"
    | [] => "Unknown"
  let tt := titleAndText cs
  let verified := containsSubL (lowerL cs) "certified buyer".data
  { rating := rating
    title := tt.1
    text := tt.2
    reviewer_name := reviewerNameOf cs
    date := "Unknown Date"
    helpful_votes := "0"
    verified_purchase := verified }

/-- Fallback ("loose container", `cPHDOP col-12-12`) record builder:
applied to containers whose text is nonempty and contains
`"Certified Buyer"` (case-sensitive gate of the caller). -/
def fallback_review (t : String) : ReviewRecord :=
  { reviewer_name := "Unknown"
    rating :=
      match t.data with
      | c :: _ => if c.isDigit then String.mk [c] else "Unknown"
      | [] => "Unknown"
    title := "No Title"
    date := "Unknown Date"
    text :=
      if t.data.length > 200 then String.mk (t.data.take 200 ++ "...".data)
      else t
    helpful_votes := "0"
    verified_purchase := containsSubL t.data "Certified Buyer".data }

/-! ### The page model (BeautifulSoup query results) -/

/-- An `<a>` element: rendered text and optional `href` attribute. -/
structure Link where
  text : String
  href : Option String
deriving Repr, DecidableEq

/-- A `<span>` element inside the `_2MImiq` pagination container: class
list and rendered text (the fields the pagination check reads and
compares; bs4 tag equality is structural). -/
structure SpanEl where
  classes : List String
  text : String
deriving Repr, DecidableEq

/-- One fetched page, as the scraper queries it through BeautifulSoup:

* `raw` — the page source string (`driver.page_source`); the empty
  string models falsy content;
* `ekfha` — the texts of the `div.EKFha-` review containers, in document
  order;
* `cphdop` — the texts of the `div.cPHDOP.col-12-12` containers;
* `divStrings` — the `.string` values of `<div>`s that have one, in
  document order (for `soup.find('div', string=...)`);
* `spanStrings` — likewise for `<span>`s;
* `allStrings` — all text nodes, in document order (for
  `soup.find(string=...)` / `find_all(string=...)`);
* `nextButton` — the first `a._1LKTO3`, if any;
* `anchors` — all `<a>` elements in document order;
* `twoMImiqSpans` — the `<span>`s inside the first `div._2MImiq`, if
  that container exists;
* `navAnchorCount` — the number of `<a>`s inside the first `<nav>`, if
  one exists. -/
structure Page where
  raw : String
  ekfha : List String
  cphdop : List String
  divStrings : List String
  spanStrings : List String
  allStrings : List String
  nextButton : Option Link
  anchors : List Link
  twoMImiqSpans : Option (List SpanEl)
  navAnchorCount : Option Nat
deriving Repr

/-- Embedding of `extract_reviews_from_page`: empty content yields no
records; if any `EKFha-` containers exist, each is parsed by the primary
fragment parser; otherwise the `cPHDOP` containers whose (truthy) text
contains `"Certified Buyer"` are turned into fallback records. -/
def extract_reviews_from_page (page : Page) : List ReviewRecord :=
  if page.raw.isEmpty then []
  else if !page.ekfha.isEmpty then
    page.ekfha.map parse_review_fragment
  else
    (page.cphdop.filter
      (fun t => (!t.isEmpty) && containsSubL t.data "Certified Buyer".data)).map
      fallback_review

/-! ### `Page X of Y` scanners -/

/-- Match of `Page<ws>(\d+)<ws>of<ws>(\d+)` anchored at the head of `cs`,
where `<ws>` is `\s+` when `flexible` and a single literal space
otherwise (the source uses both variants: `r'Page (\d+) of (\d+)'` and
`r'Page\s+(\d+)\s+of\s+(\d+)'`).  Greedy `\s+`/`\d+` never needs
backtracking here because adjacent atoms draw from disjoint character
classes. -/
def matchPageOfAt (flexible : Bool) (cs : List Char) : Option (Nat × Nat) :=
  if "Page".data.isPrefixOf cs then
    let r1 := cs.drop 4
    let ws1 := if flexible then r1.takeWhile isPyWs
               else r1.takeWhile (fun c => c = ' ') |>.take 1
    if ws1.isEmpty then none
    else if !flexible && !(r1.headD 'x' = ' ') then none
    else
      let r2 := r1.drop (if flexible then ws1.length else 1)
      let d1 := r2.takeWhile Char.isDigit
      if d1.isEmpty then none else
      let r3 := r2.drop d1.length
      let ws2 := if flexible then r3.takeWhile isPyWs else r3.take 1
      if flexible && ws2.isEmpty then none
      else if !flexible && !(r3.headD 'x' = ' ') then none
      else
        let r4 := r3.drop (if flexible then ws2.length else 1)
        if "of".data.isPrefixOf r4 then
          let r5 := r4.drop 2
          let ws3 := if flexible then r5.takeWhile isPyWs else r5.take 1
          if flexible && ws3.isEmpty then none
          else if !flexible && !(r5.headD 'x' = ' ') then none
          else
            let r6 := r5.drop (if flexible then ws3.length else 1)
            let d2 := r6.takeWhile Char.isDigit
            if d2.isEmpty then none
            else some (digitsToNat d1, digitsToNat d2)
        else none
    else none

/-- Scanner for `re.search` with the `Page ... of ...` patterns: try each
start position left to right. -/
def searchPageOf (flexible : Bool) : List Char → Option (Nat × Nat)
  | [] => matchPageOfAt flexible []
  | c :: rest =>
    match matchPageOfAt flexible (c :: rest) with
    | some p => some p
    | none => searchPageOf flexible rest

/-! ### `check_has_next_page` -/

/-- Embedding of `check_has_next_page`: the ordered chain of pagination
probes of the source.  The `button != page_buttons[-1]` comparison of
method 4 uses bs4 structural tag equality, modelled by structural
equality of `SpanEl`. -/
def check_has_next_page (page : Page) : Bool :=
  if page.raw.isEmpty then false
  else
    match page.divStrings.find?
        (fun t => (!t.isEmpty) && strContains t "Page" && strContains t "of") with
    | some t =>
      match searchPageOf false (trimL t.data) with
      | some (cur, tot) => decide (cur < tot)
      | none => check_has_next_page_rest page
    | none => check_has_next_page_rest page
where
  /-- Methods 1-6 of `check_has_next_page` (reached when the
  `Page X of Y` div probe is absent or its regex does not match). -/
  check_has_next_page_rest (page : Page) : Bool :=
    -- Method 1: next-page button with "Next" text
    if (match page.nextButton with
        | some l => strContains l.text "Next"
        | none => false) then true
    -- Method 2: a <span> whose string contains "Next"
    else if page.spanStrings.any (fun t => (!t.isEmpty) && strContains t "Next") then true
    -- Method 3: any text node containing "Next"
    else if page.allStrings.any (fun t => (!t.isEmpty) && strContains t "Next") then true
    -- Method 4: _2MImiq pagination container with a current-page span
    -- that is not the last span
    else if (match page.twoMImiqSpans with
        | some spans =>
          spans.any (fun b =>
            b.classes.contains "_2Kfbh8" && !(spans.getLast? = some b))
        | none => false) then true
    -- Method 5: a <nav> with more than one page link
    else if (match page.navAnchorCount with
        | some n => decide (n > 1)
        | none => false) then true
    -- Method 6: any text node matching `Page\s+\d+\s+of\s+\d+`
    else
      match page.allStrings.find?
          (fun t => (!t.isEmpty) && (searchPageOf true t.data).isSome) with
      | some t =>
        match searchPageOf true t.data with
        | some (cur, tot) => decide (cur < tot)
        | none => false
      | none => false

/-! ### URL helpers (`urllib.parse` fragment used by the scraper) -/

/-- `urlparse(url).scheme` for `scheme://netloc/...` URLs. -/
def urlScheme (url : String) : String :=
  String.mk ((splitOnL "://".data url.data).headD [])

/-- `urlparse(url).netloc` for `scheme://netloc/...` URLs. -/
def urlNetloc (url : String) : String :=
  match splitOnL "://".data url.data with
  | _ :: rest :: _ =>
    String.mk ((((splitOnL ['/'] rest).headD []
      |> splitOnL ['?']).headD []
      |> splitOnL ['#']).headD [])
  | _ => ""

/-- `urlparse(url).query`: the text after the first `?` of the
pre-fragment part of the URL. -/
def urlQuery (url : String) : String :=
  let noFrag := (splitOnL ['#'] url.data).headD []
  match splitOnL ['?'] noFrag with
  | _ :: rest => String.mk (intercalateL ['?'] rest)
  | [] => ""

/-- `url.split('?')[0]`. -/
def urlBeforeQuery (url : String) : String :=
  String.mk ((splitOnL ['?'] url.data).headD [])

/-- `urllib.parse.parse_qsl` with default options on an unescaped query
string: split on `&`, drop empty chunks, drop parameters without `=` or
with an empty value.  (Percent-decoding is the identity on the query
strings the scraper builds, so it is not modelled.) -/
def parseQsl (qs : String) : List (String × String) :=
  (splitOnL ['&'] qs.data).filterMap fun chunk =>
    match splitOnL ['='] chunk with
    | [] => none
    | [_] => none
    | k :: vs =>
      let v := intercalateL ['='] vs
      if v.isEmpty then none else some (String.mk k, String.mk v)

/-- Insertion step of `parse_qs`: append the value to an existing key
(keys keep first-occurrence order, like a Python dict) or add a new key
at the end. -/
def addParam (acc : List (String × List String)) (k : String) (v : String) :
    List (String × List String) :=
  if acc.any (fun p => p.1 = k) then
    acc.map (fun p => if p.1 = k then (p.1, p.2 ++ [v]) else p)
  else acc ++ [(k, [v])]

/-- `urllib.parse.parse_qs` (dict of lists, insertion-ordered). -/
def parse_qs (qs : String) : List (String × List String) :=
  (parseQsl qs).foldl (fun acc p => addParam acc p.1 p.2) []

/-- Python dict assignment `d[k] = v`: replace in place if the key
exists, else append. -/
def setParam (ps : List (String × List String)) (k : String) (v : List String) :
    List (String × List String) :=
  if ps.any (fun p => p.1 = k) then
    ps.map (fun p => if p.1 = k then (k, v) else p)
  else ps ++ [(k, v)]

/-- `urllib.parse.urlencode(d, doseq=True)` on unreserved characters
(quoting is the identity there). -/
def urlencode (ps : List (String × List String)) : String :=
  String.mk (intercalateL ['&']
    (ps.flatMap (fun p => p.2.map (fun v => p.1.data ++ ['='] ++ v.data))))

/-! ### `get_next_page_url` -/

/-- Href resolution of methods 1-2: a root-relative href is made absolute
against the current URL's scheme and host. -/
def resolveHref (currentUrl h : String) : String :=
  if h.startsWith "/" then urlScheme currentUrl ++ "://" ++ urlNetloc currentUrl ++ h
  else h

/-- Method 1 of `get_next_page_url`: the `a._1LKTO3` button's href, when
truthy. -/
def hrefOfNextButton (page : Page) : Option String :=
  match page.nextButton with
  | some l =>
    match l.href with
    | some h => if h.isEmpty then none else some h
    | none => none
  | none => none

/-- Method 2 of `get_next_page_url`: the first `<a>` whose (truthy) text
contains `Next` and whose href is truthy. -/
def hrefOfNextTextLink (page : Page) : Option String :=
  (page.anchors.find? (fun l =>
      (!l.text.isEmpty) && strContains l.text "Next" &&
      (match l.href with | some h => !h.isEmpty | none => false))).bind
    (fun l => l.href)

/-- Total-page count read in method 3: the first text node containing
both `Page` and `of`, searched with `r'Page\s+\d+\s+of\s+(\d+)'`. -/
def totalPagesOf (page : Page) : Option Nat :=
  (page.allStrings.find?
      (fun t => (!t.isEmpty) && strContains t "Page" && strContains t "of")).bind
    (fun t => (searchPageOf true t.data).map (fun p => p.2))

/-- Mechanical fallback of `get_next_page_url`: re-serialize the parsed
query parameters of the current URL with `page` set to `nextPage`. -/
def mechanicalNextUrl (currentUrl : String) (nextPage : Nat) : String :=
  let params := setParam (parse_qs (urlQuery currentUrl)) "page" [toString nextPage]
  urlBeforeQuery currentUrl ++ "?" ++ urlencode params

/-- Embedding of `get_next_page_url`: explicit next-link href (methods
1-2, resolved against the current URL), else the mechanical fallback,
refusing to advance only when a known, truthy total-page count would be
exceeded (`if total_pages and next_page > total_pages: return None`). -/
def get_next_page_url (currentUrl : String) (page : Page) (currentPage : Nat) :
    Option String :=
  match hrefOfNextButton page with
  | some h => some (resolveHref currentUrl h)
  | none =>
    match hrefOfNextTextLink page with
    | some h => some (resolveHref currentUrl h)
    | none =>
      let nextPage := currentPage + 1
      match totalPagesOf page with
      | some tot =>
        if tot ≠ 0 && nextPage > tot then none
        else some (mechanicalNextUrl currentUrl nextPage)
      | none => some (mechanicalNextUrl currentUrl nextPage)

/-! ### `convert_to_review_url` -/

/-- Scanner for `re.search(r'flipkart\.com/([^/]+)/p/', url)`: at each
occurrence of `flipkart.com/`, the greedy `[^/]+` capture is forced to
the run up to the next `/`, which must start `/p/`. -/
def searchProductPath : List Char → Option String
  | [] => none
  | c :: rest =>
    let here : Option String :=
      if "flipkart.com/".data.isPrefixOf (c :: rest) then
        let afterDom := (c :: rest).drop 13
        let seg := afterDom.takeWhile (fun ch => ch ≠ '/')
        if (!seg.isEmpty) && "/p/".data.isPrefixOf (afterDom.drop seg.length) then
          some (String.mk seg)
        else none
      else none
    match here with
    | some s => some s
    | none => searchProductPath rest

/-- Scanner for `re.search(token ++ class+)`: at each occurrence of the
literal `pre`, capture the maximal nonempty run of `cls` characters just
after it; positions where the run is empty are skipped (the regex
backtracks to the next occurrence). -/
def searchTokenRun (pre : List Char) (cls : Char → Bool) : List Char → Option (List Char)
  | [] => none
  | c :: rest =>
    let here : Option (List Char) :=
      if pre.isPrefixOf (c :: rest) then
        let run := ((c :: rest).drop pre.length).takeWhile cls
        if run.isEmpty then none else some run
      else none
    match here with
    | some r => some r
    | none => searchTokenRun pre cls rest

/-- Character class `[A-Z0-9]`. -/
def isUpperOrDigit (c : Char) : Bool := isUpperAZ c || c.isDigit

/-- Character class `[a-z0-9]`. -/
def isLowerOrDigit (c : Char) : Bool := isLowerAZ c || c.isDigit

/-- `re.search(r'pid=([A-Z0-9]+)', url)`, captured group. -/
def searchPid (url : String) : Option String :=
  (searchTokenRun "pid=".data isUpperOrDigit url.data).map String.mk

/-- `re.search(r'lid=([A-Z0-9]+)', url)`, captured group. -/
def searchLid (url : String) : Option String :=
  (searchTokenRun "lid=".data isUpperOrDigit url.data).map String.mk

/-- `re.search(r'(itm[a-z0-9]+)', url)`, whole match. -/
def searchItm (url : String) : Option String :=
  (searchTokenRun "itm".data isLowerOrDigit url.data).map
    (fun run => String.mk ("itm".data ++ run))

/-- Embedding of `convert_to_review_url`: rewrite a product URL to a
review-feed URL from its path segment, `pid`, optional `lid` and item
id; `none` when the path or `pid` cannot be found. -/
def convert_to_review_url (productUrl : String) : Option String :=
  if strContains productUrl "product-reviews" then some productUrl
  else
    match searchProductPath productUrl.data with
    | none => none
    | some productPath =>
      match searchPid productUrl with
      | none => none
      | some pid =>
        let lid := (searchLid productUrl).getD ""
        let itemId := (searchItm productUrl).getD ""
        let baseDomain := urlScheme productUrl ++ "://" ++ urlNetloc productUrl
        if (!lid.isEmpty) && (!itemId.isEmpty) then
          some (baseDomain ++ "/" ++ productPath ++ "/product-reviews/" ++ itemId ++
            "?pid=" ++ pid ++ "&lid=" ++ lid ++ "&marketplace=FLIPKART")
        else
          some (baseDomain ++ "/" ++ productPath ++ "/product-reviews/itm?pid=" ++
            pid ++ "&marketplace=FLIPKART")

/-! ### Fetch, classification and the crawl loop -/

/-- Embedding of `get_review_page_content` over an external fetch
collaborator (`driver.get` + `page_source`): a raised fetch exception
becomes the `Error accessing review page: ...` message, and the three
terminal page classifications are checked in source order on the page
source. -/
def get_review_page_content (fetch : String → Except String Page) (url : String) :
    Except String Page :=
  match fetch url with
  | .error e => .error ("Error accessing review page: " ++ e)
  | .ok page =>
    if strContains page.raw "Access Denied" || strContains page.raw "automated access" then
      .error "Access denied. Flipkart is blocking automated access."
    else if strContains page.raw "Be the first to Review this product" then
      .error "No reviews found for this product."
    else if strContains page.raw "Page Not Found" ||
        strContains page.raw "The page you are looking for does not exist" then
      .error "Page not found. The URL may be invalid or the product might not exist."
    else .ok page

/-- Exit paths of `scrape_flipkart_reviews`: one constructor per
`return`/`break` site of the source.  The Python function itself returns
only the record collection; the exit path is observable to its caller
only through the optional progress callback. -/
inductive CrawlExit where
  | notFlipkartUrl
  | cannotConvertUrl
  | stoppedError (msg : String)
  | emptyPage
  | maxPagesReached
  | noNextPage
deriving Repr, DecidableEq

/-- One `progress_callback` invocation: recorded only when a callback
was supplied (`if progress_callback:`). -/
def emit (cb : Bool) (msgs : List String) (m : String) : List String :=
  if cb then msgs ++ [m] else msgs

/-- The message text of the exception `driver.get(None)` raises inside
`get_review_page_content` when the previous iteration's
`get_next_page_url` produced no URL.  The exact text comes from the
external WebDriver; only its occurrence matters to the loop. -/
def noneUrlError : String := "Error accessing review page: invalid argument"

/-- `if max_pages and (current_page - start_page + 1) >= max_pages:`
(`max_pages` falsy when absent or zero).  The subtraction is on `Nat`;
it agrees with Python's integer arithmetic whenever
`current_page ≥ start_page`, which the loop maintains (the current page
starts at the start page and only increments). -/
def maxPagesHit (maxPages : Option Nat) (startPage currentPage : Nat) : Bool :=
  match maxPages with
  | some m => m ≠ 0 && currentPage - startPage + 1 ≥ m
  | none => false

/-- `if len(page_reviews) == 0 and current_page > start_page:` -/
def emptyStop (pageReviews : List ReviewRecord) (startPage currentPage : Nat) :
    Bool :=
  pageReviews.length = 0 && decide (currentPage > startPage)

/-- The `while True` crawl loop of `scrape_flipkart_reviews`, with fuel
making termination explicit (`none` = the loop has not terminated within
`fuel` iterations).  State: current URL (`none` after a failed
`get_next_page_url`), current page number, accumulated records, message
trace. -/
def crawlLoop (fetch : String → Except String Page) (cb : Bool)
    (maxPages : Option Nat) (startPage : Nat) :
    Nat → Option String → Nat → List ReviewRecord → List String →
    Option (List ReviewRecord × CrawlExit × List String)
  | 0, _, _, _, _ => none
  | fuel + 1, url, currentPage, acc, msgs =>
    let msgs := emit cb msgs ("Scraping page " ++ toString currentPage ++ "...")
    match url with
    | none =>
      some (acc, .stoppedError noneUrlError,
        emit cb msgs ("Stopped: " ++ noneUrlError))
    | some u =>
      match get_review_page_content fetch u with
      | .error e => some (acc, .stoppedError e, emit cb msgs ("Stopped: " ++ e))
      | .ok page =>
        let msgs := emit cb msgs "Analyzing page structure..."
        let pageReviews := extract_reviews_from_page page
        let acc2 := acc ++ pageReviews
        let msgs := emit cb msgs ("Found " ++ toString pageReviews.length ++
          " reviews on page " ++ toString currentPage ++ ". Total: " ++
          toString acc2.length)
        if emptyStop pageReviews startPage currentPage then
          some (acc2, .emptyPage,
            emit cb msgs "No reviews found on this page. Possibly reached the end.")
        else if maxPagesHit maxPages startPage currentPage then
          some (acc2, .maxPagesReached,
            emit cb msgs ("Reached maximum number of pages (" ++
              toString (maxPages.getD 0) ++ ")."))
        else if !check_has_next_page page then
          some (acc2, .noNextPage, emit cb msgs "Reached the last page of reviews.")
        else
          crawlLoop fetch cb maxPages startPage fuel
            (get_next_page_url u page currentPage) (currentPage + 1) acc2 msgs

/-- `start_page > 1` URL adjustment before the first fetch: inject or
override the `page` query parameter. -/
def injectStartPage (url : String) (startPage : Nat) : String :=
  let params := setParam (parse_qs (urlQuery url)) "page" [toString startPage]
  urlBeforeQuery url ++ "?" ++ urlencode params

/-- Embedding of `scrape_flipkart_reviews`: URL validation, product-URL
rewrite, start-page injection, then the crawl loop.  The result triple
is (records, exit path, message trace); the Python function's return
value is just the records — the exit path reaches the caller only
through the optional callback's messages. -/
def scrape_flipkart_reviews (fetch : String → Except String Page) (cb : Bool)
    (startUrl : String) (maxPages : Option Nat) (startPage : Nat) (fuel : Nat) :
    Option (List ReviewRecord × CrawlExit × List String) :=
  if !strContains startUrl "flipkart.com" then
    some ([], .notFlipkartUrl, emit cb [] "Error: Not a Flipkart URL")
  else if strContains startUrl "product-reviews" then
    scrapeFrom fetch cb maxPages startPage fuel startUrl []
  else
    match convert_to_review_url startUrl with
    | some reviewUrl =>
      scrapeFrom fetch cb maxPages startPage fuel reviewUrl
        (emit cb [] ("Converting to review URL: " ++ reviewUrl))
    | none =>
      some ([], .cannotConvertUrl,
        emit cb [] "Error: Could not convert product URL to review URL")
where
  /-- Start-page adjustment and loop entry, shared by the already-review
  and the converted-URL paths. -/
  scrapeFrom (fetch : String → Except String Page) (cb : Bool)
      (maxPages : Option Nat) (startPage : Nat) (fuel : Nat)
      (url : String) (msgs : List String) :
      Option (List ReviewRecord × CrawlExit × List String) :=
    let url := if startPage > 1 then injectStartPage url startPage else url
    crawlLoop fetch cb maxPages startPage fuel (some url) startPage [] msgs

/-! ### Concrete fixtures for witnesses and counterexamples -/

/-- A well-behaved review page: `frags` are the `EKFha-` container
texts, `strs` the text nodes (used by the pagination probes).  The raw
source contains none of the terminal-classification markers. -/
def okPage (frags : List String) (strs : List String) : Page :=
  { raw := "reviews", ekfha := frags, cphdop := [], divStrings := [],
    spanStrings := [], allStrings := strs, nextButton := none, anchors := [],
    twoMImiqSpans := none, navAnchorCount := none }

/-- A page whose source carries the `Page Not Found` marker. -/
def notFoundPage : Page :=
  { okPage [] [] with raw := "Page Not Found" }

/-- First review-feed page URL of the concrete crawls. -/
def urlP1 : String := "https://www.flipkart.com/a/product-reviews/itm?page=1"

/-- Second review-feed page URL (the mechanical successor of `urlP1`). -/
def urlP2 : String := "https://www.flipkart.com/a/product-reviews/itm?page=2"

/-- A well-formed fragment: rating 5, title `Wonderful`. -/
def frag1 : String := "5WonderfulGreat soundREAD MOREJohn DoeCertified Buyer"

/-- A well-formed fragment: rating 4, title `Good`. -/
def frag2 : String := "4GoodValue for moneyREAD MOREAsha RaniCertified Buyer"

/-- A well-formed fragment: rating 1, title `Not recommended`. -/
def frag3 : String := "1Not recommendedStopped workingREAD MORERavi KumarCertified Buyer"

/-- Oracle serving two pages of three well-formed fragments each. -/
def fetchTwoPages : String → Except String Page := fun u =>
  if u = urlP1 then .ok (okPage [frag1, frag2, frag3] ["Next"])
  else if u = urlP2 then .ok (okPage [frag1, frag2, frag3] ["Next"])
  else .error "no such page"

/-- Oracle whose second page is classified `Page Not Found`. -/
def fetchNotFoundP2 : String → Except String Page := fun u =>
  if u = urlP1 then .ok (okPage [frag1, frag2] ["Next"])
  else if u = urlP2 then .ok notFoundPage
  else .error "no such page"

/-- A page that reports a next page (a `Next` text node) while its
`Page 1 of 1` marker makes the mechanical `next_url` fallback refuse to
advance. -/
def pageC5 : Page := okPage [frag1] ["Next", "Page 1 of 1"]

/-- Oracle serving only `pageC5` at `urlP1`. -/
def fetchC5 : String → Except String Page := fun u =>
  if u = urlP1 then .ok pageC5 else .error "no such page"

/-- An oracle that always fails; used where the fetch is never reached. -/
def fetchNever : String → Except String Page := fun _ => .error "network error"

/-- A content-free page: no next-link hrefs, no text nodes. -/
def pageBare : Page := okPage [] []

/-- A page whose only text node is a `Page 1 of 0` total-page marker. -/
def pageMarkerZero : Page := okPage [] ["Page 1 of 0"]

/-! ### Lemmas about the string primitives -/

/-- `List.isPrefixOf` agrees with `<+:`. -/
theorem isPrefixOf_true_iff {a b : List Char} : a.isPrefixOf b = true ↔ a <+: b := by
  simp

/-- Two prefixes of the same list are comparable. -/
theorem prefixOf_comparable {a b t : List Char} (ha : a <+: t) (hb : b <+: t) :
    a <+: b ∨ b <+: a :=
  List.prefix_or_prefix_of_prefix ha hb

/-- The result index of the find scanner is at least the start index. -/
theorem findSubAux_le {pat : List Char} :
    ∀ {l : List Char} {i j : Nat}, findSubAux pat l i = some j → i ≤ j := by
  intro l
  induction l with
  | nil =>
    intro i j h
    by_cases hp : pat.isEmpty = true
    · simp [findSubAux, hp] at h; omega
    · simp [findSubAux, hp] at h
  | cons c r ih =>
    intro i j h
    by_cases hp : pat.isPrefixOf (c :: r) = true
    · simp [findSubAux, hp] at h; omega
    · simp [findSubAux, hp] at h
      have := ih h
      omega

/-- A find result of `0` means the pattern sits at the head. -/
theorem findSubL_zero {l pat : List Char} (h : findSubL l pat = some 0) :
    pat.isPrefixOf l = true := by
  cases l with
  | nil =>
    by_cases hp : pat.isEmpty = true
    · cases pat with
      | nil => rfl
      | cons c r => simp at hp
    · simp [findSubL, findSubAux, hp] at h
  | cons c r =>
    by_cases hp : pat.isPrefixOf (c :: r) = true
    · exact hp
    · exfalso
      simp [findSubL, findSubAux, hp] at h
      have := findSubAux_le h
      omega

/-- Whether the find scanner succeeds does not depend on the start
index. -/
theorem findSubAux_isSome_shift (pat : List Char) :
    ∀ (l : List Char) (i j : Nat),
      (findSubAux pat l i).isSome = (findSubAux pat l j).isSome := by
  intro l
  induction l with
  | nil =>
    intro i j
    by_cases hp : pat.isEmpty = true <;> simp [findSubAux, hp]
  | cons c r ih =>
    intro i j
    by_cases hp : pat.isPrefixOf (c :: r) = true
    · simp [findSubAux, hp]
    · simp [findSubAux, hp]
      exact ih (i + 1) (j + 1)

/-- Substring containment is infix. -/
theorem containsSubL_iff_occursIn {l pat : List Char} :
    containsSubL l pat = true ↔ pat <:+: l := by
  induction l with
  | nil =>
    constructor
    · intro h
      by_cases hp : pat.isEmpty = true
      · cases pat with
        | nil => exact List.infix_rfl
        | cons c r => simp at hp
      · simp [containsSubL, findSubL, findSubAux, hp] at h
    · intro h
      have hpat : pat = [] := List.infix_nil.mp h
      subst hpat
      simp [containsSubL, findSubL, findSubAux]
  | cons c r ih =>
    by_cases hp : pat.isPrefixOf (c :: r) = true
    · constructor
      · intro _
        exact (isPrefixOf_true_iff.mp hp).isInfix
      · intro _
        simp [containsSubL, findSubL, findSubAux, hp]
    · have step : containsSubL (c :: r) pat = containsSubL r pat := by
        simp only [containsSubL, findSubL, findSubAux, hp, Bool.false_eq_true,
          if_false]
        exact findSubAux_isSome_shift pat r 1 0
      rw [step, ih, List.infix_cons_iff]
      constructor
      · intro h
        exact Or.inr h
      · rintro (h | h)
        · exact absurd (isPrefixOf_true_iff.mpr h) hp
        · exact h

/-- Mapping preserves infixes. -/
theorem infix_map_mono {f : Char → Char} {a b : List Char} (h : a <:+: b) :
    a.map f <:+: b.map f := by
  obtain ⟨s, t, rfl⟩ := h
  exact ⟨s.map f, t.map f, by simp⟩

/-- A stripped list is an infix of the original. -/
theorem trimL_occursIn (l : List Char) : trimL l <:+: l := by
  have h1 : l.dropWhile isPyWs <:+ l := List.dropWhile_suffix isPyWs
  have h2 : (l.dropWhile isPyWs).reverse.dropWhile isPyWs <:+
      (l.dropWhile isPyWs).reverse := List.dropWhile_suffix isPyWs
  have h3 : ((l.dropWhile isPyWs).reverse.dropWhile isPyWs).reverse <+:
      l.dropWhile isPyWs := by
    rw [← List.reverse_suffix, List.reverse_reverse]
    exact h2
  exact (h3.isInfix).trans h1.isInfix

/-- Lowercasing fixes Python whitespace characters. -/
theorem toLower_id_of_pyWs {c : Char} (h : isPyWs c = true) : c.toLower = c := by
  simp only [isPyWs, Bool.or_eq_true, decide_eq_true_eq] at h
  rcases h with ((((h | h) | h) | h) | h) | h <;> subst h <;> decide

/-- If a pattern with a non-whitespace head occurs in the `f`-image of a
list, it also occurs in the `f`-image after the leading whitespace is
dropped, provided `f` fixes whitespace. -/
theorem infix_map_dropWhileWs {f : Char → Char}
    (hf : ∀ c, isPyWs c = true → f c = c) {h0 : Char} {pat : List Char}
    (hhead : pat.head? = some h0) (hnw : isPyWs h0 = false) :
    ∀ {l : List Char}, pat <:+: l.map f → pat <:+: (l.dropWhile isPyWs).map f := by
  intro l
  induction l with
  | nil => intro h; simpa using h
  | cons x r ih =>
    intro h
    by_cases hx : isPyWs x = true
    · rw [List.dropWhile_cons_of_pos hx]
      apply ih
      rw [List.map_cons] at h
      rcases List.infix_cons_iff.mp h with hpre | hinf
      · exfalso
        cases pat with
        | nil => simp at hhead
        | cons a as =>
          have ha : a = f x := (List.cons_prefix_cons.mp hpre).1
          have ha0 : a = h0 := by simpa using hhead
          rw [hf x hx] at ha
          have hxh : h0 = x := by rw [← ha0, ha]
          rw [hxh, hx] at hnw
          simp at hnw
      · exact hinf
    · rw [List.dropWhile_cons_of_neg (by simpa using hx)]
      simpa using h

/-- Containment of a pattern whose first and last characters are not
whitespace is unaffected by stripping the text first: the code checks
`"certified buyer" in review_text.lower()` on the stripped fragment, and
this equals the same check on the unstripped fragment. -/
theorem containsSub_lower_trim (pat : List Char) (h0 hN : Char)
    (hh : pat.head? = some h0) (h0w : isPyWs h0 = false)
    (hl : pat.getLast? = some hN) (hNw : isPyWs hN = false) (l : List Char) :
    containsSubL (lowerL (trimL l)) pat = containsSubL (lowerL l) pat := by
  have hf : ∀ c, isPyWs c = true → Char.toLower c = c := fun c hc =>
    toLower_id_of_pyWs hc
  have key : (pat <:+: lowerL (trimL l)) ↔ (pat <:+: lowerL l) := by
    constructor
    · intro h
      exact h.trans (infix_map_mono (trimL_occursIn l))
    · intro h
      have s1 : pat <:+: (l.dropWhile isPyWs).map Char.toLower :=
        infix_map_dropWhileWs hf hh h0w h
      have s2 : pat.reverse <:+: ((l.dropWhile isPyWs).map Char.toLower).reverse :=
        s1.reverse
      rw [← List.map_reverse] at s2
      have hh' : pat.reverse.head? = some hN := by
        rw [List.head?_reverse]; exact hl
      have s3 : pat.reverse <:+:
          ((l.dropWhile isPyWs).reverse.dropWhile isPyWs).map Char.toLower :=
        infix_map_dropWhileWs hf hh' hNw s2
      have s4 := s3.reverse
      rw [← List.map_reverse, List.reverse_reverse] at s4
      exact s4
  by_cases hb : containsSubL (lowerL (trimL l)) pat = true
  · rw [hb]
    exact (containsSubL_iff_occursIn.mpr (key.mp (containsSubL_iff_occursIn.mp hb))).symm
  · have hb2 : containsSubL (lowerL l) pat ≠ true := fun hc =>
      hb (containsSubL_iff_occursIn.mpr (key.mpr (containsSubL_iff_occursIn.mp hc)))
    simp only [ne_eq, Bool.not_eq_true] at hb hb2
    rw [hb, hb2]

/-! ### Field bridges for the fragment parsers -/

/-- The parsed title is the first component of `titleAndText` on the
stripped fragment. -/
theorem parse_title_eq (raw : String) :
    (parse_review_fragment raw).title = (titleAndText (trimL raw.data)).1 := rfl

/-- The parsed rating is the leading character of the stripped fragment
when it is a digit, else `Unknown`. -/
theorem parse_rating_eq (raw : String) :
    (parse_review_fragment raw).rating =
      (match trimL raw.data with
       | c :: _ => if c.isDigit then String.mk [c] else "Unknown"
       | [] => "Unknown") := rfl

/-- The parsed verified flag is the case-insensitive containment check of
the code, on the stripped fragment. -/
theorem parse_verified_eq (raw : String) :
    (parse_review_fragment raw).verified_purchase =
      containsSubL (lowerL (trimL raw.data)) "certified buyer".data := rfl

/-- The fallback record's verified flag is the case-sensitive containment
recheck of the code. -/
theorem fallback_verified_eq (t : String) :
    (fallback_review t).verified_purchase =
      containsSubL t.data "Certified Buyer".data := rfl

/-- The fallback record's rating is the leading character of the raw
container text when it is a digit, else `Unknown`. -/
theorem fallback_rating_eq (t : String) :
    (fallback_review t).rating =
      (match t.data with
       | c :: _ => if c.isDigit then String.mk [c] else "Unknown"
       | [] => "Unknown") := rfl

/-- Two vocabulary entries that both match as a propositional starting
point of the same text are equal: no entry of `title_words` is a proper
starting segment of another, so at most one entry matches at a given
position. -/
theorem title_words_uniq {t : List Char} {w1 w2 : String}
    (h1 : w1 ∈ title_words) (h2 : w2 ∈ title_words)
    (p1 : w1.data.isPrefixOf t = true) (p2 : w2.data.isPrefixOf t = true) :
    w1 = w2 := by
  have hff : ∀ a ∈ title_words, ∀ b ∈ title_words,
      a ≠ b → a.data.isPrefixOf b.data = false := by decide
  rcases prefixOf_comparable (isPrefixOf_true_iff.mp p1)
      (isPrefixOf_true_iff.mp p2) with h | h
  · by_contra hne
    have hf := hff w1 h1 w2 h2 hne
    exact absurd (isPrefixOf_true_iff.mpr h) (by simp [hf])
  · by_contra hne
    have hf := hff w2 h2 w1 h1 (Ne.symm hne)
    exact absurd (isPrefixOf_true_iff.mpr h) (by simp [hf])

/-! ### Claim theorems: fragment level -/

/-- C7 (counterexample): a fragment starting with the digit `7` is given
rating `"7"`, which is neither one of the literal digits `"1"`..`"5"`
nor the sentinel `Unknown` — the code accepts any leading decimal digit
as the rating. -/
theorem c7_rating_counterexample :
    (parse_review_fragment "7Nice").rating = "7" ∧
    ("7" : String) ∉ (["1", "2", "3", "4", "5", "Unknown"] : List String) := by
  constructor
  · rfl
  · decide

/-- C7 (amended): on both extraction paths the rating is either the
sentinel `Unknown` or the (stripped) fragment's first character, which
is then a decimal digit — any digit `0`..`9`, not only `1`..`5`; and a
fragment whose first character is not a decimal digit gets rating
`Unknown`. -/
theorem c7_rating_digit_or_unknown :
    (∀ raw : String, (parse_review_fragment raw).rating = "Unknown" ∨
       ∃ c, c.isDigit = true ∧ (trimL raw.data).head? = some c ∧
         (parse_review_fragment raw).rating = String.mk [c]) ∧
    (∀ t : String, (fallback_review t).rating = "Unknown" ∨
       ∃ c, c.isDigit = true ∧ t.data.head? = some c ∧
         (fallback_review t).rating = String.mk [c]) ∧
    (∀ (raw : String) (c : Char) (rest : List Char),
       trimL raw.data = c :: rest → c.isDigit = false →
       (parse_review_fragment raw).rating = "Unknown") := by
  refine ⟨fun raw => ?_, fun t => ?_, fun raw c rest h hc => ?_⟩
  · rw [parse_rating_eq]
    cases h : trimL raw.data with
    | nil => exact Or.inl rfl
    | cons c cs =>
      by_cases hc : c.isDigit = true
      · exact Or.inr ⟨c, hc, rfl, by simp [hc]⟩
      · simp only [Bool.not_eq_true] at hc
        exact Or.inl (by simp [hc])
  · rw [fallback_rating_eq]
    cases h : t.data with
    | nil => exact Or.inl rfl
    | cons c cs =>
      by_cases hc : c.isDigit = true
      · exact Or.inr ⟨c, hc, rfl, by simp [hc]⟩
      · simp only [Bool.not_eq_true] at hc
        exact Or.inl (by simp [hc])
  · rw [parse_rating_eq, h]
    simp [hc]

/-- C7 witness: the amended theorem applied to a fragment with a
non-digit first character. -/
theorem c7_rating_witness : (parse_review_fragment "xNope").rating = "Unknown" :=
  c7_rating_digit_or_unknown.2.2 "xNope" 'x' "Nope".data (by decide) (by decide)

/-- C9: the segmenter is a total function returning at most one record
per fragment — never more records than containers of either kind — and
on the primary path exactly one record per `EKFha-` fragment. -/
theorem c9_segment_one_record_per_fragment :
    ∀ page : Page,
      (extract_reviews_from_page page).length ≤
        page.ekfha.length + page.cphdop.length ∧
      (page.raw.isEmpty = false → page.ekfha ≠ [] →
        (extract_reviews_from_page page).length = page.ekfha.length) := by
  intro page
  by_cases hraw : page.raw.isEmpty = true
  · constructor
    · simp [extract_reviews_from_page, hraw]
    · intro hf _
      rw [hraw] at hf
      cases hf
  · simp only [Bool.not_eq_true] at hraw
    cases hpe : page.ekfha with
    | nil =>
      constructor
      · have h1 : (extract_reviews_from_page page).length ≤ page.cphdop.length := by
          simp only [extract_reviews_from_page, hraw, hpe, List.isEmpty_nil,
            Bool.not_true, Bool.false_eq_true, if_false, List.length_map]
          exact List.length_filter_le _ _
        simpa using h1
      · intro _ hne
        exact absurd rfl hne
    | cons a l =>
      have hlen : (extract_reviews_from_page page).length = (a :: l).length := by
        simp [extract_reviews_from_page, hraw, hpe, List.length_map]
      constructor
      · rw [hlen]
        omega
      · intro _ _
        exact hlen

/-- C9 witness: a one-fragment page yields exactly one record. -/
theorem c9_segment_witness :
    (extract_reviews_from_page (okPage [frag1] [])).length =
      (okPage [frag1] []).ekfha.length :=
  (c9_segment_one_record_per_fragment (okPage [frag1] [])).2 (by decide) (by decide)

/-- C8: on the primary path the verified flag equals the
case-insensitive `certified buyer` containment check on the fragment
text, and on the fallback path every container that passes the
(case-sensitive) gate is marked verified and does contain the marker
case-insensitively — so for every fragment that yields a record,
verified ⟺ case-insensitive containment. -/
theorem c8_verified_iff_certified_buyer :
    (∀ raw : String,
       (parse_review_fragment raw).verified_purchase =
         containsSubL (lowerL raw.data) "certified buyer".data) ∧
    (∀ t : String,
       ((!t.isEmpty) && containsSubL t.data "Certified Buyer".data) = true →
       (fallback_review t).verified_purchase = true ∧
       containsSubL (lowerL t.data) "certified buyer".data = true) := by
  constructor
  · intro raw
    rw [parse_verified_eq]
    exact containsSub_lower_trim "certified buyer".data 'c' 'r'
      (by decide) (by decide) (by decide) (by decide) raw.data
  · intro t ht
    simp only [Bool.and_eq_true] at ht
    obtain ⟨hne, hcb⟩ := ht
    refine ⟨by rw [fallback_verified_eq]; exact hcb, ?_⟩
    have hinf : "Certified Buyer".data <:+: t.data := containsSubL_iff_occursIn.mp hcb
    have hmap : lowerL "Certified Buyer".data <:+: lowerL t.data :=
      infix_map_mono hinf
    have heq : lowerL "Certified Buyer".data = "certified buyer".data := by decide
    rw [heq] at hmap
    exact containsSubL_iff_occursIn.mpr hmap

/-- C8 witness: the fallback part applied to a concrete certified-buyer
fragment. -/
theorem c8_verified_witness :
    (fallback_review frag1).verified_purchase = true ∧
    containsSubL (lowerL frag1.data) "certified buyer".data = true :=
  c8_verified_iff_certified_buyer.2 frag1 (by decide)

/-- C3: on the primary path, for a fragment whose stripped text starts
with a rating digit and contains the `READ MORE` boundary, if some
vocabulary entry matches at the position just after the rating digit
then the extracted title is that entry — and it is the longest matching
entry, since no other entry can match at the same position; if no entry
matches there, the title is `No Title`. -/
theorem c3_title_longest_vocabulary_match :
    ∀ (raw : String) (c : Char) (cs' : List Char),
      trimL raw.data = c :: cs' → c.isDigit = true →
      containsSubL (trimL raw.data) readMoreChars = true →
      (∀ w ∈ title_words, w.data.isPrefixOf ((trimL raw.data).drop 1) = true →
          (parse_review_fragment raw).title = w ∧
          ∀ w' ∈ title_words,
            w'.data.isPrefixOf ((trimL raw.data).drop 1) = true →
            w'.data.length ≤ w.data.length) ∧
      ((∀ w ∈ title_words, ¬ w.data.isPrefixOf ((trimL raw.data).drop 1) = true) →
          (parse_review_fragment raw).title = "No Title") := by
  intro raw c cs' hcs hc hcont
  obtain ⟨n, hn⟩ : ∃ n, findSubL (trimL raw.data) readMoreChars = some n :=
    Option.isSome_iff_exists.mp hcont
  have hn0 : ¬ n = 0 := by
    intro h0
    subst h0
    have hpre := findSubL_zero hn
    rw [hcs] at hpre
    have hR : c = 'R' :=
      ((List.cons_prefix_cons.mp
        (by simpa [readMoreChars] using isPrefixOf_true_iff.mp hpre)).1).symm
    rw [hR] at hc
    simp at hc
  have htitle : (parse_review_fragment raw).title =
      (titleTextWithReadMore (trimL raw.data) n).1 := by
    rw [parse_title_eq]
    unfold titleAndText
    rw [hn]
    simp [hn0]
  constructor
  · intro w hw hwpre
    cases hfind : matchTitleAtStart ((trimL raw.data).drop 1) with
    | none =>
      have hfind' : title_words.find?
          (fun w => w.data.isPrefixOf ((trimL raw.data).drop 1)) = none := hfind
      exact absurd hwpre (by simpa using List.find?_eq_none.mp hfind' w hw)
    | some w0 =>
      have hfind' : title_words.find?
          (fun w => w.data.isPrefixOf ((trimL raw.data).drop 1)) = some w0 := hfind
      have hw0p : w0.data.isPrefixOf ((trimL raw.data).drop 1) = true := by
        simpa using List.find?_some hfind'
      have hw0m : w0 ∈ title_words := List.mem_of_find?_eq_some hfind'
      have heqw : w = w0 := title_words_uniq hw hw0m hwpre hw0p
      constructor
      · rw [htitle]
        unfold titleTextWithReadMore
        rw [hfind]
        exact heqw.symm
      · intro w' hw' hw'pre
        have : w' = w := title_words_uniq hw' hw hw'pre hwpre
        rw [this]
  · intro hnone
    have hfind : matchTitleAtStart ((trimL raw.data).drop 1) = none :=
      List.find?_eq_none.mpr (fun x hx => by simpa using hnone x hx)
    rw [htitle]
    unfold titleTextWithReadMore
    rw [hfind]

/-- C3 witness: a concrete fragment whose title is `Wonderful`. -/
theorem c3_title_witness : (parse_review_fragment frag1).title = "Wonderful" :=
  ((c3_title_longest_vocabulary_match frag1 '5'
      "WonderfulGreat soundREAD MOREJohn DoeCertified Buyer".data
      (by decide) (by decide) (by decide)).1 "Wonderful" (by decide) (by decide)).1

/-! ### Step lemmas for the crawl loop -/

/-- A loop iteration entered with no current URL (a failed
`get_next_page_url` in the previous iteration) performs the fetch
attempt, which raises, and stops with the wrapped fetch error. -/
theorem crawlLoop_none_step (fetch : String → Except String Page) (cb : Bool)
    (mp : Option Nat) (sp fuel cp : Nat) (acc : List ReviewRecord)
    (msgs : List String) :
    crawlLoop fetch cb mp sp (fuel + 1) none cp acc msgs =
      some (acc, .stoppedError noneUrlError,
        emit cb (emit cb msgs ("Scraping page " ++ toString cp ++ "..."))
          ("Stopped: " ++ noneUrlError)) := rfl

/-- A loop iteration whose fetch/classification fails stops with exactly
the accumulated records. -/
theorem crawlLoop_error_step {fetch : String → Except String Page} {cb : Bool}
    {mp : Option Nat} {sp fuel cp : Nat} {acc : List ReviewRecord}
    {msgs : List String} {u e : String}
    (h : get_review_page_content fetch u = .error e) :
    crawlLoop fetch cb mp sp (fuel + 1) (some u) cp acc msgs =
      some (acc, .stoppedError e,
        emit cb (emit cb msgs ("Scraping page " ++ toString cp ++ "..."))
          ("Stopped: " ++ e)) := by
  simp [crawlLoop, h]

/-- Message trace after a successful fetch and segmentation of one
page. -/
def pageStepMsgs (cb : Bool) (msgs : List String) (cp : Nat) (page : Page)
    (acc : List ReviewRecord) : List String :=
  emit cb
    (emit cb (emit cb msgs ("Scraping page " ++ toString cp ++ "..."))
      "Analyzing page structure...")
    ("Found " ++ toString (extract_reviews_from_page page).length ++
      " reviews on page " ++ toString cp ++ ". Total: " ++
      toString (acc ++ extract_reviews_from_page page).length)

/-- Stop check 1: zero records extracted on a non-first page stops with
`EmptyPage`, regardless of the later checks. -/
theorem crawlLoop_empty_step {fetch : String → Except String Page} {cb : Bool}
    {mp : Option Nat} {sp fuel cp : Nat} {acc : List ReviewRecord}
    {msgs : List String} {u : String} {page : Page}
    (h : get_review_page_content fetch u = .ok page)
    (h1 : emptyStop (extract_reviews_from_page page) sp cp = true) :
    crawlLoop fetch cb mp sp (fuel + 1) (some u) cp acc msgs =
      some (acc ++ extract_reviews_from_page page, .emptyPage,
        emit cb (pageStepMsgs cb msgs cp page acc)
          "No reviews found on this page. Possibly reached the end.") := by
  simp [crawlLoop, pageStepMsgs, h, h1]

/-- Stop check 2: with check 1 negative, a reached `max_pages` bound
stops with `MaxPagesReached`, regardless of `has_next`. -/
theorem crawlLoop_max_step {fetch : String → Except String Page} {cb : Bool}
    {mp : Option Nat} {sp fuel cp : Nat} {acc : List ReviewRecord}
    {msgs : List String} {u : String} {page : Page}
    (h : get_review_page_content fetch u = .ok page)
    (h1 : emptyStop (extract_reviews_from_page page) sp cp = false)
    (h2 : maxPagesHit mp sp cp = true) :
    crawlLoop fetch cb mp sp (fuel + 1) (some u) cp acc msgs =
      some (acc ++ extract_reviews_from_page page, .maxPagesReached,
        emit cb (pageStepMsgs cb msgs cp page acc)
          ("Reached maximum number of pages (" ++ toString (mp.getD 0) ++ ").")) := by
  simp [crawlLoop, pageStepMsgs, h, h1, h2]

/-- Stop check 3: with checks 1-2 negative, a negative `has_next` stops
with `NoNextPage`. -/
theorem crawlLoop_nonext_step {fetch : String → Except String Page} {cb : Bool}
    {mp : Option Nat} {sp fuel cp : Nat} {acc : List ReviewRecord}
    {msgs : List String} {u : String} {page : Page}
    (h : get_review_page_content fetch u = .ok page)
    (h1 : emptyStop (extract_reviews_from_page page) sp cp = false)
    (h2 : maxPagesHit mp sp cp = false)
    (h3 : check_has_next_page page = false) :
    crawlLoop fetch cb mp sp (fuel + 1) (some u) cp acc msgs =
      some (acc ++ extract_reviews_from_page page, .noNextPage,
        emit cb (pageStepMsgs cb msgs cp page acc)
          "Reached the last page of reviews.") := by
  simp [crawlLoop, pageStepMsgs, h, h1, h2, h3]

/-- With all three stop checks negative, the loop advances to
`get_next_page_url`'s result (possibly no URL) and the next page
number. -/
theorem crawlLoop_continue_step {fetch : String → Except String Page} {cb : Bool}
    {mp : Option Nat} {sp fuel cp : Nat} {acc : List ReviewRecord}
    {msgs : List String} {u : String} {page : Page}
    (h : get_review_page_content fetch u = .ok page)
    (h1 : emptyStop (extract_reviews_from_page page) sp cp = false)
    (h2 : maxPagesHit mp sp cp = false)
    (h3 : check_has_next_page page = true) :
    crawlLoop fetch cb mp sp (fuel + 1) (some u) cp acc msgs =
      crawlLoop fetch cb mp sp fuel (get_next_page_url u page cp) (cp + 1)
        (acc ++ extract_reviews_from_page page)
        (pageStepMsgs cb msgs cp page acc) := by
  simp [crawlLoop, pageStepMsgs, h, h1, h2, h3]

/-! ### Claim theorems: crawl loop and pagination -/

/-- C2: whenever the crawl stops because the fetch/classification of the
current page fails (terminal classification or fetch error), the
returned records are exactly those accumulated from the previous pages —
nothing added by the failing page, nothing discarded; concretely, a
two-page run whose second page is `Page Not Found` returns exactly the
first page's records with the page-not-found stop. -/
theorem c2_stop_preserves_accumulated_records :
    (∀ (fetch : String → Except String Page) (cb : Bool) (mp : Option Nat)
       (sp fuel cp : Nat) (acc : List ReviewRecord) (msgs : List String)
       (u e : String),
       get_review_page_content fetch u = .error e →
       ∃ m, crawlLoop fetch cb mp sp (fuel + 1) (some u) cp acc msgs =
         some (acc, .stoppedError e, m)) ∧
    scrape_flipkart_reviews fetchNotFoundP2 false urlP1 none 1 10 =
      some (extract_reviews_from_page (okPage [frag1, frag2] ["Next"]),
        .stoppedError
          "Page not found. The URL may be invalid or the product might not exist.",
        []) := by
  constructor
  · intro fetch cb mp sp fuel cp acc msgs u e h
    exact ⟨_, crawlLoop_error_step h⟩
  · decide

/-- C2 witness: the general part applied to the failing second page of
the concrete crawl, with the first page's records accumulated. -/
theorem c2_witness :
    ∃ m, crawlLoop fetchNotFoundP2 false none 1 3 (some urlP2) 2
      (extract_reviews_from_page (okPage [frag1, frag2] ["Next"])) [] =
      some (extract_reviews_from_page (okPage [frag1, frag2] ["Next"]),
        .stoppedError
          "Page not found. The URL may be invalid or the product might not exist.",
        m) :=
  c2_stop_preserves_accumulated_records.1 fetchNotFoundP2 false none 1 2 2 _ []
    urlP2 _ rfl

/-- C6: a crawl with `max_pages = 2` over two pages of three well-formed
fragments each returns exactly 6 records with `MaxPagesReached`; and the
stop checks run in the order empty page (non-first), then max pages,
then `has_next`. -/
theorem c6_max_pages_and_stop_order :
    ((scrape_flipkart_reviews fetchTwoPages false urlP1 (some 2) 1 10).map
        (fun r => (r.1.length, r.2.1)) = some (6, CrawlExit.maxPagesReached)) ∧
    (∀ (fetch : String → Except String Page) (cb : Bool) (mp : Option Nat)
       (sp fuel cp : Nat) (acc : List ReviewRecord) (msgs : List String)
       (u : String) (page : Page),
       get_review_page_content fetch u = .ok page →
       emptyStop (extract_reviews_from_page page) sp cp = true →
       ∃ m, crawlLoop fetch cb mp sp (fuel + 1) (some u) cp acc msgs =
         some (acc ++ extract_reviews_from_page page, .emptyPage, m)) ∧
    (∀ (fetch : String → Except String Page) (cb : Bool) (mp : Option Nat)
       (sp fuel cp : Nat) (acc : List ReviewRecord) (msgs : List String)
       (u : String) (page : Page),
       get_review_page_content fetch u = .ok page →
       emptyStop (extract_reviews_from_page page) sp cp = false →
       maxPagesHit mp sp cp = true →
       ∃ m, crawlLoop fetch cb mp sp (fuel + 1) (some u) cp acc msgs =
         some (acc ++ extract_reviews_from_page page, .maxPagesReached, m)) ∧
    (∀ (fetch : String → Except String Page) (cb : Bool) (mp : Option Nat)
       (sp fuel cp : Nat) (acc : List ReviewRecord) (msgs : List String)
       (u : String) (page : Page),
       get_review_page_content fetch u = .ok page →
       emptyStop (extract_reviews_from_page page) sp cp = false →
       maxPagesHit mp sp cp = false →
       check_has_next_page page = false →
       ∃ m, crawlLoop fetch cb mp sp (fuel + 1) (some u) cp acc msgs =
         some (acc ++ extract_reviews_from_page page, .noNextPage, m)) := by
  refine ⟨by decide, ?_, ?_, ?_⟩
  · intro fetch cb mp sp fuel cp acc msgs u page h h1
    exact ⟨_, crawlLoop_empty_step h h1⟩
  · intro fetch cb mp sp fuel cp acc msgs u page h h1 h2
    exact ⟨_, crawlLoop_max_step h h1 h2⟩
  · intro fetch cb mp sp fuel cp acc msgs u page h h1 h2 h3
    exact ⟨_, crawlLoop_nonext_step h h1 h2 h3⟩

/-- C6 witness: the max-pages check applied to the concrete second page
of the two-page crawl. -/
theorem c6_witness :
    ∃ m, crawlLoop fetchTwoPages false (some 2) 1 1 (some urlP2) 2 [] [] =
      some ([] ++ extract_reviews_from_page (okPage [frag1, frag2, frag3] ["Next"]),
        .maxPagesReached, m) :=
  c6_max_pages_and_stop_order.2.2.1 fetchTwoPages false (some 2) 1 0 2 [] []
    urlP2 (okPage [frag1, frag2, frag3] ["Next"]) rfl (by decide) (by decide)

/-- C5 (counterexample): on a page where `has_next` reports true but
`next_url` produces no URL, the crawl does not stop with `NoNextPage`;
it starts another iteration (the trace shows `Scraping page 2...`, a
further fetch attempt) and stops with the wrapped fetch error. -/
theorem c5_counterexample :
    (scrape_flipkart_reviews fetchC5 true urlP1 none 1 10 =
      some (extract_reviews_from_page pageC5, .stoppedError noneUrlError,
        ["Scraping page 1...", "Analyzing page structure...",
         "Found 1 reviews on page 1. Total: 1", "Scraping page 2...",
         "Stopped: " ++ noneUrlError])) ∧
    CrawlExit.stoppedError noneUrlError ≠ CrawlExit.noNextPage ∧
    check_has_next_page pageC5 = true ∧
    get_next_page_url urlP1 pageC5 1 = none := by
  refine ⟨by decide, by decide, by decide, by decide⟩

/-- C5 (amended): when `next_url` yields no URL after `has_next`
reported true (and no earlier stop check fired), the crawl advances with
the absent URL, the next iteration's fetch attempt fails, and the crawl
stops with a fetch error — not `NoNextPage` — preserving the records
accumulated so far. -/
theorem c5_next_url_none_fetch_error :
    ∀ (fetch : String → Except String Page) (cb : Bool) (mp : Option Nat)
      (sp fuel cp : Nat) (acc : List ReviewRecord) (msgs : List String)
      (u : String) (page : Page),
      get_review_page_content fetch u = .ok page →
      emptyStop (extract_reviews_from_page page) sp cp = false →
      maxPagesHit mp sp cp = false →
      check_has_next_page page = true →
      get_next_page_url u page cp = none →
      ∃ m, crawlLoop fetch cb mp sp (fuel + 2) (some u) cp acc msgs =
        some (acc ++ extract_reviews_from_page page,
          .stoppedError noneUrlError, m) := by
  intro fetch cb mp sp fuel cp acc msgs u page h h1 h2 h3 h4
  have hc := @crawlLoop_continue_step fetch cb mp sp (fuel + 1) cp acc msgs
    u page h h1 h2 h3
  rw [h4] at hc
  exact ⟨_, hc.trans (crawlLoop_none_step _ _ _ _ _ _ _ _)⟩

/-- C5 witness: the amended theorem applied to the concrete
`Page 1 of 1` page. -/
theorem c5_witness :
    ∃ m, crawlLoop fetchC5 false none 1 2 (some urlP1) 1 [] [] =
      some ([] ++ extract_reviews_from_page pageC5,
        .stoppedError noneUrlError, m) :=
  c5_next_url_none_fetch_error fetchC5 false none 1 0 1 [] [] urlP1 pageC5
    rfl (by decide) rfl (by decide) (by decide)

/-- With a callback supplied, every terminating loop run leaves a
nonempty message trace (used for C1). -/
theorem crawlLoop_msgs_ne_nil {fetch : String → Except String Page}
    {mp : Option Nat} {sp : Nat} :
    ∀ (fuel : Nat) (url : Option String) (cp : Nat) (acc : List ReviewRecord)
      (msgs : List String) (r : List ReviewRecord × CrawlExit × List String),
      crawlLoop fetch true mp sp fuel url cp acc msgs = some r → r.2.2 ≠ [] := by
  intro fuel
  induction fuel with
  | zero =>
    intro url cp acc msgs r h
    simp [crawlLoop] at h
  | succ n ih =>
    intro url cp acc msgs r h
    cases url with
    | none =>
      rw [crawlLoop_none_step] at h
      have hr := Option.some.inj h
      subst hr
      simp [emit]
    | some u =>
      cases hg : get_review_page_content fetch u with
      | error e =>
        rw [crawlLoop_error_step hg] at h
        have hr := Option.some.inj h
        subst hr
        simp [emit]
      | ok page =>
        by_cases h1 : emptyStop (extract_reviews_from_page page) sp cp = true
        · rw [crawlLoop_empty_step hg h1] at h
          have hr := Option.some.inj h
          subst hr
          simp [emit]
        · simp only [Bool.not_eq_true] at h1
          by_cases h2 : maxPagesHit mp sp cp = true
          · rw [crawlLoop_max_step hg h1 h2] at h
            have hr := Option.some.inj h
            subst hr
            simp [emit]
          · simp only [Bool.not_eq_true] at h2
            by_cases h3 : check_has_next_page page = true
            · rw [crawlLoop_continue_step hg h1 h2 h3] at h
              exact ih _ _ _ _ _ h
            · simp only [Bool.not_eq_true] at h3
              rw [crawlLoop_nonext_step hg h1 h2 h3] at h
              have hr := Option.some.inj h
              subst hr
              simp [emit]

/-- C1 (counterexample): with no progress callback supplied (the
default), a crawl of a non-Flipkart URL returns an empty record
collection and an empty message trace — the caller receives an
unexplained empty result; the Python function's return value carries no
stop reason (the exit constructor exists only in the embedding's
bookkeeping). -/
theorem c1_counterexample :
    scrape_flipkart_reviews fetchNever false "http://example.com/x" none 1 1 =
      some ([], .notFlipkartUrl, []) := by
  decide

/-- C1 (amended): the stop reason reaches the caller only through the
optional progress callback, not the return value; when a callback is
supplied, every exit path emits an explanatory message — including URL
validation failure and failed product-URL rewrite — so every
terminating run has a nonempty message trace. -/
theorem c1_reason_via_callback :
    (∀ (fetch : String → Except String Page) (cb : Bool) (startUrl : String)
       (mp : Option Nat) (sp fuel : Nat),
       strContains startUrl "flipkart.com" = false →
       scrape_flipkart_reviews fetch cb startUrl mp sp fuel =
         some ([], .notFlipkartUrl, emit cb [] "Error: Not a Flipkart URL")) ∧
    (∀ (fetch : String → Except String Page) (cb : Bool) (startUrl : String)
       (mp : Option Nat) (sp fuel : Nat),
       strContains startUrl "flipkart.com" = true →
       strContains startUrl "product-reviews" = false →
       convert_to_review_url startUrl = none →
       scrape_flipkart_reviews fetch cb startUrl mp sp fuel =
         some ([], .cannotConvertUrl,
           emit cb [] "Error: Could not convert product URL to review URL")) ∧
    (∀ (fetch : String → Except String Page) (startUrl : String)
       (mp : Option Nat) (sp fuel : Nat)
       (r : List ReviewRecord × CrawlExit × List String),
       scrape_flipkart_reviews fetch true startUrl mp sp fuel = some r →
       r.2.2 ≠ []) := by
  refine ⟨?_, ?_, ?_⟩
  · intro fetch cb startUrl mp sp fuel h
    simp [scrape_flipkart_reviews, h]
  · intro fetch cb startUrl mp sp fuel h1 h2 h3
    simp [scrape_flipkart_reviews, h1, h2, h3]
  · intro fetch startUrl mp sp fuel r h
    by_cases hval : strContains startUrl "flipkart.com" = false
    · have he : scrape_flipkart_reviews fetch true startUrl mp sp fuel =
          some ([], .notFlipkartUrl, emit true [] "Error: Not a Flipkart URL") := by
        simp [scrape_flipkart_reviews, hval]
      rw [he] at h
      have hr := Option.some.inj h
      subst hr
      simp [emit]
    · simp only [Bool.not_eq_false] at hval
      by_cases hpr : strContains startUrl "product-reviews" = true
      · simp only [scrape_flipkart_reviews, scrape_flipkart_reviews.scrapeFrom,
          hval, hpr, Bool.not_true, Bool.false_eq_true, if_false, if_true] at h
        exact crawlLoop_msgs_ne_nil _ _ _ _ _ _ h
      · simp only [Bool.not_eq_true] at hpr
        cases hcv : convert_to_review_url startUrl with
        | none =>
          have he : scrape_flipkart_reviews fetch true startUrl mp sp fuel =
              some ([], .cannotConvertUrl,
                emit true [] "Error: Could not convert product URL to review URL") := by
            simp [scrape_flipkart_reviews, hval, hpr, hcv]
          rw [he] at h
          have hr := Option.some.inj h
          subst hr
          simp [emit]
        | some u =>
          simp only [scrape_flipkart_reviews, scrape_flipkart_reviews.scrapeFrom,
            hval, hpr, hcv, Bool.not_true, Bool.false_eq_true, if_false] at h
          exact crawlLoop_msgs_ne_nil _ _ _ _ _ _ h

/-- C1 witness: the validation-failure part applied to a concrete
non-Flipkart URL with a callback supplied. -/
theorem c1_witness :
    scrape_flipkart_reviews fetchNever true "http://example.com/x" none 1 1 =
      some ([], .notFlipkartUrl, ["Error: Not a Flipkart URL"]) := by
  have h := c1_reason_via_callback.1 fetchNever true "http://example.com/x"
    none 1 1 (by decide)
  simpa [emit] using h

/-- C4 (counterexample): a page whose total-page marker reports zero
total pages (`Page 1 of 0`) carries an explicit total-page-count marker,
yet `next_url` advances past it (Python's `if total_pages and ...`
treats the falsy `0` as absent) instead of returning no URL. -/
theorem c4_counterexample :
    totalPagesOf pageMarkerZero = some 0 ∧
    get_next_page_url urlP1 pageMarkerZero 1 = some urlP2 := by
  exact ⟨by decide, by decide⟩

/-- C4 (amended): with no next-link href in the content, `next_url` on
`.../reviews?page=2&x=1` with current page 2 yields the same URL with
`page=3` (other parameters preserved in order); and when the content
carries a total-page-count marker with a nonzero total, `next_url`
refuses to advance past that total. -/
theorem c4_mechanical_and_total_guard :
    (get_next_page_url
        "https://www.flipkart.com/a/product-reviews/itm?page=2&x=1"
        pageBare 2 =
      some "https://www.flipkart.com/a/product-reviews/itm?page=3&x=1") ∧
    (∀ (url : String) (page : Page) (cp tot : Nat),
       hrefOfNextButton page = none →
       hrefOfNextTextLink page = none →
       totalPagesOf page = some tot →
       tot ≠ 0 → cp + 1 > tot →
       get_next_page_url url page cp = none) := by
  constructor
  · decide
  · intro url page cp tot hb hl ht htz hgt
    simp [get_next_page_url, hb, hl, ht, htz, hgt]

/-- C4 witness: the total-page guard applied to the concrete
`Page 1 of 1` page. -/
theorem c4_witness : get_next_page_url urlP1 pageC5 1 = none :=
  c4_mechanical_and_total_guard.2 urlP1 pageC5 1 1 (by decide) (by decide)
    (by decide) (by decide) (by decide)

/-- C10: in the mechanical fallback, the next-page URL is rebuilt from
the parsed query parameters, so parameters with empty values (`x=`) are
dropped, the `#fragment` is discarded, and `page` is replaced by the
incremented value; in general every parameter surviving the query-string
parse has a non-empty value. -/
theorem c10_rebuilt_query_drops_empty_params :
    (get_next_page_url
        "https://www.flipkart.com/a/product-reviews/itm?page=2&x=&y=1#frag"
        pageBare 2 =
      some "https://www.flipkart.com/a/product-reviews/itm?page=3&y=1") ∧
    (∀ (qs : String) (k v : String), (k, v) ∈ parseQsl qs → v ≠ "") := by
  constructor
  · decide
  · intro qs k v hmem
    simp only [parseQsl, List.mem_filterMap] at hmem
    obtain ⟨chunk, _, hf⟩ := hmem
    cases hsp : splitOnL ['='] chunk with
    | nil => rw [hsp] at hf; simp at hf
    | cons k' vs =>
      cases vs with
      | nil => rw [hsp] at hf; simp at hf
      | cons v' rest =>
        rw [hsp] at hf
        simp only at hf
        by_cases hemp : (intercalateL ['='] (v' :: rest)).isEmpty = true
        · rw [if_pos hemp] at hf
          exact absurd hf (by simp)
        · rw [if_neg hemp] at hf
          have hp := Option.some.inj hf
          have hv : v = String.mk (intercalateL ['='] (v' :: rest)) :=
            (congrArg Prod.snd hp).symm
          intro hcon
          rw [hcon] at hv
          have : intercalateL ['='] (v' :: rest) = [] := by
            have := congrArg String.data hv
            simpa using this
          rw [this] at hemp
          simp at hemp

/-- C10 witness: the general part applied to a concrete query string
containing an empty-valued parameter. -/
theorem c10_witness :
    (("y", "1") : String × String) ∈ parseQsl "page=2&x=&y=1" ∧
    ("1" : String) ≠ "" :=
  ⟨by decide,
    c10_rebuilt_query_drops_empty_params.2 "page=2&x=&y=1" "y" "1" (by decide)⟩

end Flipkart
